import Mathlib

/-!
Verification of the `@elements/config` nested-settings container.

The repository has two source files:
  * `src/config.ts` — the `Config` class (facade over path-based tree access);
  * `src/find.ts`   — `findOrCreateAppConfig`, the module-discovery adapter.

`config.ts` delegates path resolution and tree traversal to `get`, `set` and
`push` imported from the external package `@elements/utils`, whose code is not
part of this repository.  Those three primitives (and the JS builtins
`Object.assign`, `typeof`, truthiness, `process.env`, `require`) are therefore
modelled from the specification (spec §4.1 PathResolver, §4.2 TreeAccessor,
§4.4 push, §6 external interfaces) and from standard JavaScript semantics;
everything in `config.ts` and `find.ts` itself is translated line by line.

JavaScript values are embedded as the inductive `Value`: mapping nodes are
association lists with unique keys (JS object own enumerable string-keyed
properties), sequence nodes are lists, scalars are undefined / null / boolean
/ integer / string, plus an uninterpreted function token.  JS numbers are modelled as
`Int` (the configuration values exercised by the spec are integers; NaN and
float quirks are outside the model).  Reference aliasing is modelled by value
equality: mutation of the owned root in place becomes explicit state passing.
-/

/-- A JavaScript runtime value as stored in a config tree: scalar nodes,
mapping nodes (association list of own enumerable string keys, in insertion
order) and sequence nodes (arrays).  `vfun` is an uninterpreted token standing for a
function value, which the engine never inspects. -/
inductive Value where
  | vundefined : Value
  | vnull : Value
  | vbool : Bool → Value
  | vnum : Int → Value
  | vstr : String → Value
  | vfun : Nat → Value
  | obj : List (String × Value) → Value
  | arr : List Value → Value

/-- True exactly for the JS value `undefined` (the test of `typeof x` against the string undefined
as used throughout `config.ts`). -/
def Value.isUndef : Value → Bool
  | Value.vundefined => true
  | _ => false

/-- True exactly for sequence (array) nodes, the `Array.isArray` test. -/
def Value.isArr : Value → Bool
  | Value.arr _ => true
  | _ => false

/-- JavaScript truthiness: `undefined`, `null`, `false`, `0` and the empty
string are falsy; objects, arrays and functions are always truthy. -/
def truthy : Value → Bool
  | Value.vundefined => false
  | Value.vnull => false
  | Value.vbool b => b
  | Value.vnum n => n != 0
  | Value.vstr s => !s.isEmpty
  | Value.vfun _ => true
  | Value.obj _ => true
  | Value.arr _ => true

/-- The JavaScript `typeof` operator on modelled values.  Note
`typeof null` is the string object, and so are arrays. -/
def jsTypeof : Value → String
  | Value.vundefined => "undefined"
  | Value.vnull => "object"
  | Value.vbool _ => "boolean"
  | Value.vnum _ => "number"
  | Value.vstr _ => "string"
  | Value.vfun _ => "function"
  | Value.obj _ => "object"
  | Value.arr _ => "object"

/-- A node one can read a property from while traversing: mapping or sequence
nodes.  Scalars (and `undefined`/`null`) are not indexable; per spec §4.2 a
read stops there and a write replaces them. -/
def isIndexable : Value → Bool
  | Value.obj _ => true
  | Value.arr _ => true
  | _ => false

/-- Property lookup in a mapping node (first matching key). -/
def lookupEntry : List (String × Value) → String → Option Value
  | [], _ => none
  | (k, v) :: rest, key => if k = key then some v else lookupEntry rest key

/-- Property lookup defaulting to `undefined`, as JS property reads do. -/
def lookupD (es : List (String × Value)) (key : String) : Value :=
  (lookupEntry es key).getD Value.vundefined

/-- Property write in a mapping node: replaces the first matching key in
place, or appends the key at the end (JS insertion-order update). -/
def setKey : List (String × Value) → String → Value → List (String × Value)
  | [], key, v => [(key, v)]
  | (k, w) :: rest, key, v =>
      if k = key then (key, v) :: rest else (k, w) :: setKey rest key v

/-- Folds a list of property writes over a mapping node; this is the effect
of `Object.assign` copying the source entries left to right. -/
def setKeys (es : List (String × Value)) (src : List (String × Value)) :
    List (String × Value) :=
  src.foldl (fun acc kv => setKey acc kv.1 kv.2) es

/-- Array element write at an index, padding with `undefined` below the index
when the array is shorter (JS `a[i] = v` extension). -/
def setIdx : List Value → Nat → Value → List Value
  | [], 0, v => [v]
  | [], Nat.succ i, v => Value.vundefined :: setIdx [] i v
  | _ :: rest, 0, v => v :: rest
  | x :: rest, Nat.succ i, v => x :: setIdx rest i v

/-- Splits a character list on the dot character; `splitAux cs acc` has the
characters of the current (reversed) segment in `acc`.  This is JS
`string.split(".")`: it never returns an empty list, and the empty string
splits to one empty segment. -/
def splitAux : List Char → List Char → List String
  | [], acc => [String.mk acc.reverse]
  | c :: cs, acc =>
      if c = '.' then String.mk acc.reverse :: splitAux cs []
      else splitAux cs (c :: acc)

/-- A path specification as accepted by every `Config` method: a single
dot-delimited string, or an ordered collection of such strings (spec §3). -/
inductive PathSpec where
  | str : String → PathSpec
  | list : List String → PathSpec

/-- Modelled from the spec: the PathResolver of `@elements/utils` (spec §4.1,
not part of this repository).  A collection is joined with a dot into one
string, then the string is split on dots into segments; no validation. -/
def resolve : PathSpec → List String
  | PathSpec.str s => splitAux s.data []
  | PathSpec.list l => splitAux (String.intercalate ("." : String) l).data []

/-- Modelled from the spec: one traversal step of the TreeAccessor (spec
§4.2, from `@elements/utils`).  A mapping node is read by key; a sequence
node is read at a numeric segment, out-of-range and non-numeric reads giving
`undefined`; any non-indexable node yields `undefined` (resolution stops). -/
def stepSeg (v : Value) (key : String) : Value :=
  match v with
  | Value.obj es => lookupD es key
  | Value.arr xs =>
      match key.toNat? with
      | some i => xs.getD i Value.vundefined
      | none => Value.vundefined
  | _ => Value.vundefined

/-- Walks a value along resolved segments, one `stepSeg` at a time. -/
def walk (v : Value) (segs : List String) : Value :=
  segs.foldl stepSeg v

/-- Modelled from the spec: `get(root, segments, default)` of
`@elements/utils` (spec §4.2): walks the root; if the final value is
`undefined` (which also covers any missing or non-indexable intermediate,
where resolution stops) the default is returned, otherwise the value itself,
including falsy-but-defined values. -/
def uget (root : Value) (segs : List String) (dflt : Value) : Value :=
  if (walk root segs).isUndef then dflt else walk root segs

/-- Writes a child at one key of a node: mapping nodes update the key,
sequence nodes update a numeric index.  Writing a non-numeric key to a
sequence, or any key to a scalar, replaces the node by a fresh one-entry
mapping — the overwrite-with-mapping policy, one of the two behaviors the
spec leaves to the implementer for non-traversable nodes (spec §4.2, §9);
this choice keeps the set/get round trip of spec §8 universal. -/
def writeKey (cur : Value) (key : String) (child : Value) : Value :=
  match cur with
  | Value.obj es => Value.obj (setKey es key child)
  | Value.arr xs =>
      match key.toNat? with
      | some i => Value.arr (setIdx xs i child)
      | none => Value.obj [(key, child)]
  | _ => Value.obj [(key, child)]

/-- Modelled from the spec: `set(root, segments, value)` of
`@elements/utils` (spec §4.2): walks the root, reusing indexable intermediate
nodes and creating (or, for non-traversable nodes, overwriting with) fresh
mapping nodes for missing intermediates — mapping creation, never implicit
sequence creation — then writes the value at the final segment. -/
def uset : Value → List String → Value → Value
  | _, [], v => v
  | cur, key :: rest, v =>
      match rest with
      | [] => writeKey cur key v
      | _ :: _ =>
          let child := stepSeg cur key
          writeKey cur key
            (uset (if isIndexable child then child else Value.obj []) rest v)

/-- The failures the system can raise (spec §7): the facade errors
MissingRequiredValue and InvalidArgument errors, the TypeError-class
NotAppendable error of `push`, and JS TypeErrors from builtins. -/
inductive ConfigError where
  | missingRequiredValue : PathSpec → ConfigError
  | invalidArgument : String → ConfigError
  | notAppendable : PathSpec → ConfigError
  | typeError : String → ConfigError

/-- Modelled from the spec: `push(root, path, value)` of `@elements/utils`
(spec §4.4): no value at the path creates a one-element sequence, an existing
sequence is appended to in call order, a non-sequence existing value fails
with the TypeError-class NotAppendable error; on success the appended value
itself is returned alongside the new root. -/
def upush (root : Value) (p : PathSpec) (v : Value) :
    Except ConfigError (Value × Value) :=
  match uget root (resolve p) Value.vundefined with
  | Value.vundefined => Except.ok (v, uset root (resolve p) (Value.arr [v]))
  | Value.arr xs => Except.ok (v, uset root (resolve p) (Value.arr (xs ++ [v])))
  | _ => Except.error (ConfigError.notAppendable p)

/-- The own enumerable string-keyed entries `Object.assign` copies from a
source value: a mapping contributes its entries, an array its indexed
elements under their decimal index keys, a string its characters likewise;
all other values contribute nothing. -/
def srcEntries : Value → List (String × Value)
  | Value.obj es => es
  | Value.arr xs =>
      (xs.enum).map (fun p => (toString p.1, p.2))
  | Value.vstr s =>
      ((s.data.map (fun c => Value.vstr c.toString)).enum).map
        (fun p => (toString p.1, p.2))
  | _ => []

/-- The JS builtin `Object.assign(target, source)` as used by
`Config.assign`: throws a TypeError on a `null` or `undefined` target, and
shallow-merges the source entries into a mapping target (source keys
overwrite).  A sequence or scalar target is returned unchanged: there JS
boxes the target or attaches properties outside the modelled tree, a corner
a corner none of the observable behavior in the spec reaches. -/
def objAssign (target other : Value) : Except ConfigError Value :=
  match target with
  | Value.vnull => Except.error (ConfigError.typeError ("Cannot convert undefined or null to object"))
  | Value.vundefined => Except.error (ConfigError.typeError ("Cannot convert undefined or null to object"))
  | Value.obj es => Except.ok (Value.obj (setKeys es (srcEntries other)))
  | t => Except.ok t

/-- The default-export unwrap at the start of `Config.assign`
(config.ts lines 193-195): `if (other.default) other = other.default`.
Reading the property from `null` or `undefined` is a JS TypeError; on a
mapping the default slot replaces the value when truthy; every other value
has no (modelled) `default` property and is kept. -/
def readDefaultUnwrap : Value → Except ConfigError Value
  | Value.vnull => Except.error (ConfigError.typeError ("Cannot read properties of null"))
  | Value.vundefined => Except.error (ConfigError.typeError ("Cannot read properties of undefined"))
  | Value.obj es =>
      Except.ok (if truthy (lookupD es ("default")) then lookupD es ("default") else Value.obj es)
  | v => Except.ok v

/-- The constructor argument of `Config` (config.ts lines 8-17), which
dispatches on the runtime type: a builder callback (the branch where `typeof` is the string function, represented by its action on the store data), another `Config`
instance (the `instanceof` branch, carrying the aliased root), or any other
value. -/
inductive CtorArg where
  | builder : (Value → Value) → CtorArg
  | fromConfig : Value → CtorArg
  | fromValue : Value → CtorArg

namespace Config

/-- The `Config` constructor (config.ts lines 8-17): the root starts as a
fresh empty mapping; a builder callback is invoked on the new store, the root of another
store is adopted (aliased), and any other argument with
`typeof` equal to the string object — including `null` and arrays — is adopted as the root
itself with no copying and no validation; all remaining types leave the fresh
empty mapping. -/
def mkData : CtorArg → Value
  | CtorArg.builder f => f (Value.obj [])
  | CtorArg.fromConfig d => d
  | CtorArg.fromValue v =>
      if jsTypeof v = "object" then v else Value.obj []

/-- `Config.env` (config.ts lines 19-21):
the chain `process.env.ENV || process.env.NODE_ENV` falling back to the literal dev.  The two environment
variables are passed explicitly (`none` when unset); the JS `||` falls
through on the falsy empty string as well. -/
def env (e n : Option String) : String :=
  match e with
  | some s => if s.isEmpty then (match n with
      | some t => if t.isEmpty then ("dev") else t
      | none => ("dev")) else s
  | none =>
      match n with
      | some t => if t.isEmpty then ("dev") else t
      | none => ("dev")

/-- `Config.is` (config.ts lines 23-25): equality of `env()` with the
probed name. -/
def isEnv (e n : Option String) (name : String) : Bool :=
  env e n == name

/-- `Config.get` (config.ts lines 56-58): delegates to the utils `get` with
the resolved path and the (possibly `undefined`) default value. -/
def get (d : Value) (p : PathSpec) (dflt : Value) : Value :=
  uget d (resolve p) dflt

/-- `Config.set` (config.ts lines 154-157): writes through the utils `set`
and returns the value that was passed in (first component), alongside the
updated root (second component, the in-place mutation made explicit). -/
def set (d : Value) (p : PathSpec) (v : Value) : Value × Value :=
  (v, uset d (resolve p) v)

/-- `Config.has` (config.ts lines 135-137): `!!get(this._data, path)` — the
double negation, i.e. JS truthiness of the looked-up value with no
default. -/
def has (d : Value) (p : PathSpec) : Bool :=
  truthy (uget d (resolve p) Value.vundefined)

/-- `Config.getOrThrow` (config.ts lines 72-80).  The optional default is
`none` when the caller supplied no second argument at all and `some u` when
it was supplied (possibly as `undefined`), mirroring the
`arguments.length === 1` test; the resolved value being `undefined` with no
supplied default raises MissingRequiredValue naming the path. -/
def getOrThrow (d : Value) (p : PathSpec) (arg : Option Value) :
    Except ConfigError Value :=
  let result := uget d (resolve p) ((arg.getD Value.vundefined))
  if result.isUndef && arg.isNone then
    Except.error (ConfigError.missingRequiredValue p)
  else Except.ok result

/-- `Config.push` (config.ts lines 100-102): delegates to the utils
`push`. -/
def push (d : Value) (p : PathSpec) (v : Value) :
    Except ConfigError (Value × Value) :=
  upush d p v

/-- `Config.setIfNotDefined` (config.ts lines 170-181): writes only when the
existing value is `undefined`; returns the existing or the new value together
with the updated root. -/
def setIfNotDefined (d : Value) (p : PathSpec) (v : Value) : Value × Value :=
  if (uget d (resolve p) Value.vundefined).isUndef then (v, uset d (resolve p) v)
  else (uget d (resolve p) Value.vundefined, d)

/-- `Config.assign` (config.ts lines 186-214): rejects arguments whose
`typeof` is not the string object with InvalidArgument naming the received type;
unwraps a truthy `default` slot; then — when a truthy (nonempty) path string
is given — ensures a value exists at the path via `setIfNotDefined`,
`Object.assign`s the other value into it and writes it back; finally always
`Object.assign`s the other value into the top-level root.  (The
`other instanceof Config` unwrapping branch concerns arguments that are
`Config` instances, which plain modelled values never are.)  On an error the
root passed in is unchanged. -/
def assign (d : Value) (other : Value) (path : Option String) :
    Except ConfigError Value :=
  if jsTypeof other = "object" then
    match readDefaultUnwrap other with
    | Except.error e => Except.error e
    | Except.ok o2 =>
        match path with
        | some p =>
            if p.isEmpty then objAssign d o2
            else
              match setIfNotDefined d (PathSpec.str p) (Value.obj []) with
              | (existing, d1) =>
                  match objAssign existing o2 with
                  | Except.error e => Except.error e
                  | Except.ok assigned =>
                      objAssign (uset d1 (resolve (PathSpec.str p)) assigned) o2
        | none => objAssign d o2
  else Except.error (ConfigError.invalidArgument (jsTypeof other))

end Config

/-- The shape of the exported value of a loaded configuration module, as far as
`find.ts` inspects it: either the export object is itself a `Config`
instance (carrying its root), or it is anything else, in which case only
whether its `default` slot holds a `Config` instance (and the root of that instance) matters — all other exports are ignored. -/
inductive ModuleExports where
  | configInst : Value → ModuleExports
  | plain : Option Value → ModuleExports

/-- `findOrCreateAppConfig` (find.ts lines 9-27).  Modelled from the spec:
`require.resolve` / `require` under `<baseDirectory>/app/config` are external
(spec §6); their outcome is passed in as `none` (module not located — the
caught, recovered condition) or `some exports`.  A missing module or an
export carrying no `Config` instance yields `new Config()`; otherwise the
root of the located instance is returned as-is. -/
def findOrCreateAppConfig : Option ModuleExports → Value
  | none => Config.mkData (CtorArg.fromValue Value.vundefined)
  | some (ModuleExports.configInst d) => d
  | some (ModuleExports.plain (some d)) => d
  | some (ModuleExports.plain none) => Config.mkData (CtorArg.fromValue Value.vundefined)

/-! ## Basic lemmas about the traversal primitives -/

theorem walk_nil (v : Value) : walk v [] = v := rfl

theorem walk_cons (v : Value) (k : String) (rest : List String) :
    walk v (k :: rest) = walk (stepSeg v k) rest := rfl

theorem walk_append (v : Value) (s t : List String) :
    walk v (s ++ t) = walk (walk v s) t := by
  simp [walk, List.foldl_append]

theorem uget_undef (d : Value) (segs : List String) :
    uget d segs Value.vundefined = walk d segs := by
  unfold uget
  cases h : walk d segs <;> simp [Value.isUndef, h]

theorem stepSeg_not_indexable (v : Value) (k : String)
    (h : isIndexable v = false) : stepSeg v k = Value.vundefined := by
  cases v <;> simp_all [isIndexable, stepSeg]

theorem walk_undef (segs : List String) :
    walk Value.vundefined segs = Value.vundefined := by
  induction segs with
  | nil => rfl
  | cons k rest ih => rw [walk_cons]; exact ih

theorem walk_not_indexable (v : Value) (segs : List String)
    (hne : segs ≠ []) (h : isIndexable v = false) :
    walk v segs = Value.vundefined := by
  cases segs with
  | nil => exact absurd rfl hne
  | cons k rest =>
      rw [walk_cons, stepSeg_not_indexable v k h]
      exact walk_undef rest

theorem lookupEntry_setKey_self (es : List (String × Value)) (k : String)
    (v : Value) : lookupEntry (setKey es k v) k = some v := by
  induction es with
  | nil => simp [setKey, lookupEntry]
  | cons e rest ih =>
      by_cases h : e.1 = k
      · simp [setKey, h, lookupEntry]
      · simp [setKey, h, lookupEntry, ih]

theorem lookupEntry_setKey_ne (es : List (String × Value)) (k q : String)
    (v : Value) (h : q ≠ k) :
    lookupEntry (setKey es k v) q = lookupEntry es q := by
  induction es with
  | nil => simp [setKey, lookupEntry, Ne.symm h]
  | cons e rest ih =>
      by_cases he : e.1 = k
      · simp [setKey, he, lookupEntry, Ne.symm h]
      · simp [setKey, he, lookupEntry, ih]

theorem getD_setIdx (i : Nat) (xs : List Value) (c : Value) :
    List.getD (setIdx xs i c) i Value.vundefined = c := by
  induction i generalizing xs with
  | zero => cases xs <;> simp [setIdx, List.getD]
  | succ n ih =>
      cases xs with
      | nil => simpa [setIdx, List.getD_cons_succ] using ih []
      | cons x rest => simpa [setIdx, List.getD_cons_succ] using ih rest

theorem stepSeg_writeKey (cur : Value) (k : String) (c : Value) :
    stepSeg (writeKey cur k c) k = c := by
  cases cur with
  | obj es => simp [writeKey, stepSeg, lookupD, lookupEntry_setKey_self]
  | arr xs =>
      cases h : k.toNat? with
      | some i =>
          simp only [writeKey, h, stepSeg]
          exact getD_setIdx i xs c
      | none =>
          simp [writeKey, h, stepSeg, lookupD, lookupEntry]
  | vundefined => simp [writeKey, stepSeg, lookupD, lookupEntry]
  | vnull => simp [writeKey, stepSeg, lookupD, lookupEntry]
  | vbool b => simp [writeKey, stepSeg, lookupD, lookupEntry]
  | vnum n => simp [writeKey, stepSeg, lookupD, lookupEntry]
  | vstr s => simp [writeKey, stepSeg, lookupD, lookupEntry]
  | vfun t => simp [writeKey, stepSeg, lookupD, lookupEntry]

theorem walk_uset (segs : List String) (d v : Value) :
    walk (uset d segs v) segs = v := by
  induction segs generalizing d with
  | nil => rfl
  | cons k rest ih =>
      cases rest with
      | nil =>
          show walk (writeKey d k v) [k] = v
          rw [walk_cons, stepSeg_writeKey]
          rfl
      | cons r rs =>
          show walk (writeKey d k
            (uset (if isIndexable (stepSeg d k) then stepSeg d k
                   else Value.obj []) (r :: rs) v)) (k :: r :: rs) = v
          rw [walk_cons, stepSeg_writeKey]
          exact ih _

theorem splitAux_ne_nil (cs acc : List Char) : splitAux cs acc ≠ [] := by
  induction cs generalizing acc with
  | nil => simp [splitAux]
  | cons c rest ih =>
      by_cases h : c = '.'
      · simp [splitAux, h]
      · simp only [splitAux, h, if_false]
        exact ih _

theorem resolve_ne_nil (p : PathSpec) : resolve p ≠ [] := by
  cases p <;> exact splitAux_ne_nil _ _

/-! ## Lemmas about shallow merge and path splitting -/

theorem lookupEntry_setKeys_not_mem (src : List (String × Value)) (k : String)
    (hk : k ∉ src.map Prod.fst) (es : List (String × Value)) :
    lookupEntry (setKeys es src) k = lookupEntry es k := by
  induction src generalizing es with
  | nil => rfl
  | cons e rest ih =>
      simp only [List.map_cons, List.mem_cons] at hk
      push_neg at hk
      show lookupEntry (setKeys (setKey es e.1 e.2) rest) k = lookupEntry es k
      rw [ih hk.2, lookupEntry_setKey_ne es e.1 k e.2 hk.1]

theorem lookupEntry_setKeys_mem (src : List (String × Value)) (k : String)
    (hnd : (src.map Prod.fst).Nodup) (hk : k ∈ src.map Prod.fst)
    (es : List (String × Value)) :
    lookupEntry (setKeys es src) k = lookupEntry src k := by
  induction src generalizing es with
  | nil => simp at hk
  | cons e rest ih =>
      simp only [List.map_cons, List.nodup_cons] at hnd
      simp only [List.map_cons, List.mem_cons] at hk
      show lookupEntry (setKeys (setKey es e.1 e.2) rest) k =
        lookupEntry (e :: rest) k
      rcases hk with hk | hk
      · have hnr : k ∉ rest.map Prod.fst := hk ▸ hnd.1
        rw [lookupEntry_setKeys_not_mem rest k hnr,
          hk, lookupEntry_setKey_self]
        show _ = lookupEntry (e :: rest) e.1
        simp [lookupEntry]
      · have hne : k ≠ e.1 := fun hc => hnd.1 (hc ▸ hk)
        rw [ih hnd.2 hk]
        show lookupEntry rest k = lookupEntry (e :: rest) k
        simp [lookupEntry, Ne.symm hne]

theorem splitAux_append_dot (cs1 : List Char) (acc cs2 : List Char) :
    splitAux (cs1 ++ '.' :: cs2) acc = splitAux cs1 acc ++ splitAux cs2 [] := by
  induction cs1 generalizing acc with
  | nil => simp [splitAux]
  | cons c rest ih =>
      by_cases h : c = '.'
      · simp [splitAux, h, ih]
      · simp only [List.cons_append, splitAux, h, if_false]
        exact ih _

theorem splitAux_no_dot (cs : List Char) (acc : List Char)
    (h : ∀ c ∈ cs, c ≠ '.') :
    splitAux cs acc = [String.mk (acc.reverse ++ cs)] := by
  induction cs generalizing acc with
  | nil => simp [splitAux]
  | cons c rest ih =>
      have hc : c ≠ '.' := h c (List.mem_cons_self c rest)
      simp only [splitAux, hc, if_false]
      rw [ih _ (fun x hx => h x (List.mem_cons_of_mem c hx))]
      simp

theorem string_data_append (s t : String) : (s ++ t).data = s.data ++ t.data := by
  cases s
  cases t
  rfl

theorem string_mk_data (s : String) : String.mk s.data = s := by
  cases s
  rfl

theorem resolve_single (k : String) (h : ∀ c ∈ k.data, c ≠ '.') :
    resolve (PathSpec.str k) = [k] := by
  show splitAux k.data [] = [k]
  rw [splitAux_no_dot k.data [] h]
  simp [string_mk_data]

theorem resolve_dot_append (p k : String) (h : ∀ c ∈ k.data, c ≠ '.') :
    resolve (PathSpec.str (p ++ ("." : String) ++ k)) =
      resolve (PathSpec.str p) ++ [k] := by
  show splitAux (p ++ ("." : String) ++ k).data [] = splitAux p.data [] ++ [k]
  rw [string_data_append, string_data_append]
  have hdot : (("." : String)).data = ['.'] := rfl
  rw [hdot, List.append_assoc]
  show splitAux (p.data ++ '.' :: k.data) [] = splitAux p.data [] ++ [k]
  rw [splitAux_append_dot, splitAux_no_dot k.data [] h]
  simp [string_mk_data]

theorem uset_obj (es : List (String × Value)) (segs : List String) (v : Value)
    (hne : segs ≠ []) :
    ∃ es2, uset (Value.obj es) segs v = Value.obj es2 := by
  cases segs with
  | nil => exact absurd rfl hne
  | cons k rest =>
      cases rest with
      | nil => exact ⟨setKey es k v, rfl⟩
      | cons r rs => exact ⟨setKey es k _, rfl⟩

/-! ## Claim theorems -/

/-- C1: for every path specification P and every value V, after `set(P, V)`
on a `Config` store, `get(P)` (no default, i.e. default `undefined`) returns
exactly V, and `set(P, V)` itself returns V. -/
theorem set_get_roundtrip (d : Value) (p : PathSpec) (v : Value) :
    (Config.set d p v).1 = v ∧
    Config.get (Config.set d p v).2 p Value.vundefined = v := by
  refine ⟨rfl, ?_⟩
  show uget (uset d (resolve p) v) (resolve p) Value.vundefined = v
  rw [uget_undef, walk_uset]

/-- C3: `getOrThrow(P)` raises MissingRequiredValue naming P exactly when
the resolved value is `undefined` and no default argument was supplied at
all, while `getOrThrow(P, undefined)` — default explicitly passed as
`undefined` — returns `undefined` without raising. -/
theorem getOrThrow_spec (d : Value) (p : PathSpec) :
    (Config.getOrThrow d p none =
        Except.error (ConfigError.missingRequiredValue p) ↔
      Config.get d p Value.vundefined = Value.vundefined) ∧
    (Config.get d p Value.vundefined = Value.vundefined →
      Config.getOrThrow d p (some Value.vundefined) =
        Except.ok Value.vundefined) := by
  have hg : Config.get d p Value.vundefined = walk d (resolve p) :=
    uget_undef _ _
  constructor
  · rw [hg]
    cases hv : walk d (resolve p) <;>
      simp [Config.getOrThrow, uget, hv, Value.isUndef]
  · intro h
    rw [hg] at h
    simp [Config.getOrThrow, uget, h, Value.isUndef]

/-- C3 witness: on an empty store, `getOrThrow` of a missing path with no
default raises MissingRequiredValue naming the path, and with the default
explicitly passed as `undefined` returns `undefined`. -/
theorem getOrThrow_spec_witness :
    Config.getOrThrow (Value.obj []) (PathSpec.str ("missing")) none =
      Except.error (ConfigError.missingRequiredValue (PathSpec.str ("missing"))) ∧
    Config.getOrThrow (Value.obj []) (PathSpec.str ("missing"))
      (some Value.vundefined) = Except.ok Value.vundefined :=
  ⟨(getOrThrow_spec (Value.obj []) (PathSpec.str ("missing"))).1.mpr rfl,
   (getOrThrow_spec (Value.obj []) (PathSpec.str ("missing"))).2 rfl⟩

/-- C4: `has(P)` is the boolean truthiness of `get(P)`; in particular after
`set(P, V)` with any falsy V it is `false` — concretely, after
`set(a, 0)`, `has(a)` is `false`. -/
theorem has_truthiness :
    (∀ d p, Config.has d p = truthy (Config.get d p Value.vundefined)) ∧
    (∀ d p v, Config.has (Config.set d p v).2 p = truthy v) ∧
    Config.has (Config.set (Value.obj []) (PathSpec.str ("a"))
      (Value.vnum 0)).2 (PathSpec.str ("a")) = false := by
  refine ⟨fun d p => rfl, fun d p v => ?_, ?_⟩
  · show truthy (uget (uset d (resolve p) v) (resolve p) Value.vundefined) =
      truthy v
    rw [uget_undef, walk_uset]
  · rfl

/-- C5: whenever traversal of P meets a missing or non-indexable
intermediate node (the resolved segments split as pre ++ suf with suf
nonempty and the walk along pre stuck on a non-indexable value), `get`
returns the default — `undefined` when none is supplied — and `has` returns
`false`; reads are total and never raise. -/
theorem get_missing_safe (d : Value) (p : PathSpec) (dflt : Value)
    (pre suf : List String) (hsplit : resolve p = pre ++ suf)
    (hne : suf ≠ []) (hidx : isIndexable (walk d pre) = false) :
    Config.get d p dflt = dflt ∧
    Config.get d p Value.vundefined = Value.vundefined ∧
    Config.has d p = false := by
  have hw : walk d (resolve p) = Value.vundefined := by
    rw [hsplit, walk_append]
    exact walk_not_indexable _ _ hne hidx
  refine ⟨?_, ?_, ?_⟩
  · show uget d (resolve p) dflt = dflt
    simp [uget, hw, Value.isUndef]
  · show uget d (resolve p) Value.vundefined = Value.vundefined
    simp [uget, hw, Value.isUndef]
  · show truthy (uget d (resolve p) Value.vundefined) = false
    simp [uget, hw, Value.isUndef, truthy]

/-- C5 witness: with a store holding the scalar 5 at key a, reading the
deeper path a.b yields the supplied default, `undefined` with no default,
and `has` is `false`. -/
theorem get_missing_safe_witness :
    Config.get (Value.obj [(("a"), Value.vnum 5)]) (PathSpec.str ("a.b"))
      (Value.vstr ("D")) = Value.vstr ("D") ∧
    Config.get (Value.obj [(("a"), Value.vnum 5)]) (PathSpec.str ("a.b"))
      Value.vundefined = Value.vundefined ∧
    Config.has (Value.obj [(("a"), Value.vnum 5)]) (PathSpec.str ("a.b")) =
      false :=
  get_missing_safe (Value.obj [(("a"), Value.vnum 5)]) (PathSpec.str ("a.b"))
    (Value.vstr ("D")) (["a"]) (["b"]) rfl (by decide) rfl

/-- C6: `push(P, V)` creates the one-element sequence [V] when nothing is at
P, appends V in call order to an existing sequence, fails with the
TypeError-class NotAppendable error on any other existing value, and on
success returns the appended value V itself (first component), not the
sequence. -/
theorem push_spec (d : Value) (p : PathSpec) (v : Value) :
    (Config.get d p Value.vundefined = Value.vundefined →
      ∃ d2, Config.push d p v = Except.ok (v, d2) ∧
        Config.get d2 p Value.vundefined = Value.arr [v]) ∧
    (∀ xs, Config.get d p Value.vundefined = Value.arr xs →
      ∃ d2, Config.push d p v = Except.ok (v, d2) ∧
        Config.get d2 p Value.vundefined = Value.arr (xs ++ [v])) ∧
    (∀ w, Config.get d p Value.vundefined = w → w.isUndef = false →
      w.isArr = false →
      Config.push d p v = Except.error (ConfigError.notAppendable p)) := by
  refine ⟨?_, ?_, ?_⟩
  · intro h
    have h2 : uget d (resolve p) Value.vundefined = Value.vundefined := h
    refine ⟨uset d (resolve p) (Value.arr [v]), ?_, ?_⟩
    · show upush d p v = _
      unfold upush
      rw [h2]
    · show uget (uset d (resolve p) (Value.arr [v])) (resolve p)
        Value.vundefined = Value.arr [v]
      rw [uget_undef, walk_uset]
  · intro xs h
    have h2 : uget d (resolve p) Value.vundefined = Value.arr xs := h
    refine ⟨uset d (resolve p) (Value.arr (xs ++ [v])), ?_, ?_⟩
    · show upush d p v = _
      unfold upush
      rw [h2]
    · show uget (uset d (resolve p) (Value.arr (xs ++ [v]))) (resolve p)
        Value.vundefined = Value.arr (xs ++ [v])
      rw [uget_undef, walk_uset]
  · intro w hw h1 h2
    have hw2 : uget d (resolve p) Value.vundefined = w := hw
    show upush d p v = _
    unfold upush
    rw [hw2]
    cases w with
    | vundefined => simp [Value.isUndef] at h1
    | arr xs => simp [Value.isArr] at h2
    | vnull => rfl
    | vbool b => rfl
    | vnum n => rfl
    | vstr s => rfl
    | vfun t => rfl
    | obj es => rfl

/-- C6 witness: pushing x at the unset path a.b creates [x]; pushing again
onto the resulting store yields [x, x] in call order; pushing at a path
holding the scalar 5 fails with NotAppendable. -/
theorem push_spec_witness :
    (∃ d2, Config.push (Value.obj []) (PathSpec.str ("a.b"))
        (Value.vstr ("x")) = Except.ok (Value.vstr ("x"), d2) ∧
      Config.get d2 (PathSpec.str ("a.b")) Value.vundefined =
        Value.arr [Value.vstr ("x")]) ∧
    (∃ d3, Config.push
        (Value.obj [(("a"), Value.obj [(("b"),
          Value.arr [Value.vstr ("x")])])])
        (PathSpec.str ("a.b")) (Value.vstr ("x")) =
        Except.ok (Value.vstr ("x"), d3) ∧
      Config.get d3 (PathSpec.str ("a.b")) Value.vundefined =
        Value.arr [Value.vstr ("x"), Value.vstr ("x")]) ∧
    Config.push (Value.obj [(("a"), Value.vnum 5)]) (PathSpec.str ("a"))
      (Value.vstr ("x")) =
      Except.error (ConfigError.notAppendable (PathSpec.str ("a"))) := by
  refine ⟨?_, ?_, ?_⟩
  · exact (push_spec (Value.obj []) (PathSpec.str ("a.b"))
      (Value.vstr ("x"))).1 rfl
  · have h := (push_spec
      (Value.obj [(("a"), Value.obj [(("b"), Value.arr [Value.vstr ("x")])])])
      (PathSpec.str ("a.b")) (Value.vstr ("x"))).2.1
      [Value.vstr ("x")] rfl
    simpa using h
  · exact (push_spec (Value.obj [(("a"), Value.vnum 5)]) (PathSpec.str ("a"))
      (Value.vstr ("x"))).2.2 (Value.vnum 5) rfl rfl rfl

/-- C7 counterexample: `assign` succeeds on an argument that is not
mapping-shaped — an array passes the `typeof` check and is merged by its
index keys — contradicting the claim that `assign` raises InvalidArgument
for every non-mapping argument and succeeds only on mapping-shaped ones. -/
theorem assign_nonmapping_accepted_cex :
    Config.assign (Value.obj []) (Value.arr [Value.vnum 1]) none =
      Except.ok (Value.obj [(("0"), Value.vnum 1)]) := rfl

/-- C7 amended: for every argument whose JS `typeof` is not the string
object — numbers, strings, booleans, `undefined`, functions — `assign`
raises InvalidArgument naming the received type and leaves the store
unchanged (no new root is produced); arguments with `typeof` object pass the
check even when not mapping-shaped (`null` then fails with a TypeError while
reading its default slot, and arrays are accepted and merged). -/
theorem assign_invalid_argument (d o : Value) (path : Option String)
    (h : jsTypeof o ≠ ("object" : String)) :
    Config.assign d o path =
      Except.error (ConfigError.invalidArgument (jsTypeof o)) := by
  unfold Config.assign
  rw [if_neg h]

/-- C7 witness: assigning the number 5 fails with InvalidArgument naming the
received type. -/
theorem assign_invalid_argument_witness :
    Config.assign (Value.obj []) (Value.vnum 5) none =
      Except.error (ConfigError.invalidArgument ("number")) :=
  assign_invalid_argument (Value.obj []) (Value.vnum 5) none (by decide)

/-- C8 counterexample: with ENV set (to the empty string) and NODE_ENV set
to prod, `env()` returns prod, not the value of ENV — the JS `||` chain
falls through on any falsy string, so a set-but-empty ENV is skipped,
contradicting the claim that `env()` returns ENV whenever it is set. -/
theorem env_empty_cex :
    Config.env (some ("")) (some ("prod")) = "prod" ∧
    Config.env (some ("")) (some ("prod")) ≠ ("" : String) := by
  exact ⟨rfl, by decide⟩

/-- C8 amended: `env()` returns ENV when it is set to a nonempty (truthy)
string, else NODE_ENV when that is set to a nonempty string, else the
literal dev; and `is(name)` is true exactly when `env()` equals name. -/
theorem env_priority (e n : Option String) (name : String) :
    (∀ s, e = some s → s.isEmpty = false → Config.env e n = s) ∧
    ((e = none ∨ e = some ("")) →
      ∀ s, n = some s → s.isEmpty = false → Config.env e n = s) ∧
    ((e = none ∨ e = some ("")) → (n = none ∨ n = some ("")) →
      Config.env e n = "dev") ∧
    (Config.isEnv e n name = true ↔ Config.env e n = name) := by
  have hemp0 : ("" : String).isEmpty = true := rfl
  refine ⟨?_, ?_, ?_, ?_⟩
  · intro s hs hemp
    subst hs
    simp [Config.env, hemp]
  · intro he s hs hemp
    subst hs
    rcases he with he | he <;> subst he <;> simp [Config.env, hemp, hemp0]
  · intro he hn
    rcases he with he | he <;> rcases hn with hn | hn <;>
      subst he <;> subst hn <;> simp [Config.env, hemp0]
  · simp [Config.isEnv, beq_iff_eq]

/-- C8 witness: a nonempty ENV wins, NODE_ENV is used when ENV is unset,
both unset defaults to dev, and `is(dev)` agrees with `env() = dev`
there. -/
theorem env_priority_witness :
    Config.env (some ("prod")) none = "prod" ∧
    Config.env none (some ("test")) = "test" ∧
    Config.env none none = "dev" ∧
    (Config.isEnv none none ("dev") = true ↔ Config.env none none = "dev") :=
  ⟨(env_priority (some ("prod")) none ("dev")).1 ("prod") rfl (by decide),
   (env_priority none (some ("test")) ("dev")).2.1 (Or.inl rfl) ("test") rfl
     (by decide),
   (env_priority none none ("dev")).2.2.1 (Or.inl rfl) (Or.inl rfl),
   (env_priority none none ("dev")).2.2.2⟩

/-- C2 counterexample: `assign({x: 1}, x)` — the path colliding with a key
of the merged mapping — ends with the root key x holding the scalar 1, so
`get(x.x)` is `undefined`, not 1: the claimed path-scoped merge does not
survive, because the top-level merge runs after the path-scoped one and
overwrites it. -/
theorem assign_path_collision_cex :
    Config.assign (Value.obj []) (Value.obj [(("x"), Value.vnum 1)])
        (some ("x")) =
      Except.ok (Value.obj [(("x"), Value.vnum 1)]) ∧
    Config.get (Value.obj [(("x"), Value.vnum 1)]) (PathSpec.str ("x.x"))
      Value.vundefined = Value.vundefined := ⟨rfl, rfl⟩

/-- C2 amended: `assign(O, P)` shallow-merges the mapping O into the
(possibly freshly created) mapping at P, O keys overwriting same-named keys
there, and additionally always shallow-merges O into the top-level root —
the top-level merge running second, so the path-scoped result is observable
provided no key of O collides with the first segment of P (and O carries no
truthy default slot, which would be unwrapped first).  Then for every key k
of O both `get(P.k)` and `get(k)` equal O[k]. -/
theorem assign_dual_merge (es os : List (String × Value)) (p k : String)
    (hp : p.isEmpty = false)
    (hdef : truthy (lookupD os ("default")) = false)
    (hnd : (os.map Prod.fst).Nodup)
    (hk : k ∈ os.map Prod.fst)
    (hkdot : ∀ c ∈ k.data, c ≠ '.')
    (hhead : ∀ s rest, resolve (PathSpec.str p) = s :: rest →
      s ∉ os.map Prod.fst)
    (hex : walk (Value.obj es) (resolve (PathSpec.str p)) = Value.vundefined ∨
      ∃ mes, walk (Value.obj es) (resolve (PathSpec.str p)) = Value.obj mes) :
    ∃ es2,
      Config.assign (Value.obj es) (Value.obj os) (some p) =
        Except.ok (Value.obj es2) ∧
      Config.get (Value.obj es2)
        (PathSpec.str (p ++ ("." : String) ++ k)) Value.vundefined =
        lookupD os k ∧
      Config.get (Value.obj es2) (PathSpec.str k) Value.vundefined =
        lookupD os k := by
  rcases hsegs : resolve (PathSpec.str p) with _ | ⟨s0, srest⟩
  · exact absurd hsegs (resolve_ne_nil _)
  have hs0 : s0 ∉ os.map Prod.fst := hhead s0 srest hsegs
  have hsegne : resolve (PathSpec.str p) ≠ [] := resolve_ne_nil _
  -- the setIfNotDefined call yields a mapping value and a mapping root
  have hpair : ∃ mes0 es0,
      Config.setIfNotDefined (Value.obj es) (PathSpec.str p) (Value.obj [])
        = (Value.obj mes0, Value.obj es0) := by
    rcases hex with hA | ⟨mes, hB⟩
    · obtain ⟨esA, hesA⟩ :=
        uset_obj es (resolve (PathSpec.str p)) (Value.obj []) hsegne
      refine ⟨[], esA, ?_⟩
      unfold Config.setIfNotDefined
      rw [uget_undef, hA, hesA]
      rfl
    · refine ⟨mes, es, ?_⟩
      unfold Config.setIfNotDefined
      rw [uget_undef, hB]
      rfl
  obtain ⟨mes0, es0, hpair⟩ := hpair
  obtain ⟨es1, hes1⟩ :=
    uset_obj es0 (resolve (PathSpec.str p)) (Value.obj (setKeys mes0 os))
      hsegne
  refine ⟨setKeys es1 os, ?_, ?_, ?_⟩
  · -- the assign call itself
    have hto : jsTypeof (Value.obj os) = ("object" : String) := rfl
    have hrdu : readDefaultUnwrap (Value.obj os) = Except.ok (Value.obj os) := by
      simp [readDefaultUnwrap, hdef]
    have hne2 : ¬(p.isEmpty = true) := by simp [hp]
    have hoa1 : objAssign (Value.obj mes0) (Value.obj os) =
        Except.ok (Value.obj (setKeys mes0 os)) := rfl
    have hoa2 : objAssign (Value.obj es1) (Value.obj os) =
        Except.ok (Value.obj (setKeys es1 os)) := rfl
    unfold Config.assign
    rw [if_pos hto, hrdu]
    simp only [if_neg hne2, hpair]
    rw [hoa1]
    show objAssign (uset (Value.obj es0) (resolve (PathSpec.str p))
      (Value.obj (setKeys mes0 os))) (Value.obj os) =
      Except.ok (Value.obj (setKeys es1 os))
    rw [hes1]
    exact hoa2
  · -- get at the path-scoped key P.k
    show uget (Value.obj (setKeys es1 os))
      (resolve (PathSpec.str (p ++ ("." : String) ++ k))) Value.vundefined =
      lookupD os k
    rw [uget_undef, resolve_dot_append p k hkdot, walk_append, hsegs]
    have hstep : stepSeg (Value.obj (setKeys es1 os)) s0 =
        stepSeg (Value.obj es1) s0 := by
      show lookupD (setKeys es1 os) s0 = lookupD es1 s0
      unfold lookupD
      rw [lookupEntry_setKeys_not_mem os s0 hs0]
    rw [walk_cons (Value.obj (setKeys es1 os)) s0 srest, hstep,
      ← walk_cons (Value.obj es1) s0 srest, ← hsegs, ← hes1, walk_uset]
    show stepSeg (Value.obj (setKeys mes0 os)) k = lookupD os k
    show lookupD (setKeys mes0 os) k = lookupD os k
    unfold lookupD
    rw [lookupEntry_setKeys_mem os k hnd hk]
  · -- get at the top-level key k
    show uget (Value.obj (setKeys es1 os)) (resolve (PathSpec.str k))
      Value.vundefined = lookupD os k
    rw [uget_undef, resolve_single k hkdot]
    show stepSeg (Value.obj (setKeys es1 os)) k = lookupD os k
    show lookupD (setKeys es1 os) k = lookupD os k
    unfold lookupD
    rw [lookupEntry_setKeys_mem os k hnd hk]

/-- C2 witness: `assign({x: 1}, scope)` on an empty store yields both
`get(scope.x) = 1` and `get(x) = 1` — the dual merge. -/
theorem assign_dual_merge_witness :
    ∃ es2,
      Config.assign (Value.obj []) (Value.obj [(("x"), Value.vnum 1)])
          (some ("scope")) =
        Except.ok (Value.obj es2) ∧
      Config.get (Value.obj es2) (PathSpec.str ("scope" ++ ("." : String) ++ "x"))
        Value.vundefined = lookupD [(("x"), Value.vnum 1)] ("x") ∧
      Config.get (Value.obj es2) (PathSpec.str ("x")) Value.vundefined =
        lookupD [(("x"), Value.vnum 1)] ("x") := by
  refine assign_dual_merge [] [(("x"), Value.vnum 1)] ("scope") ("x")
    rfl rfl ?_ ?_ ?_ ?_ ?_
  · decide
  · decide
  · decide
  · intro s rest hr
    have hres : resolve (PathSpec.str ("scope")) = [("scope" : String)] := rfl
    rw [hres] at hr
    injection hr with h1 h2
    subst h1
    decide
  · exact Or.inl rfl

/-- C9: `findOrCreateAppConfig` returns a fresh empty store when the module
under the base directory cannot be located (the not-found condition is
recovered into an empty store, never surfaced); when the module loads it
returns the exported `Config` as-is, else the `Config` in the default-export
slot, else a fresh empty store. -/
theorem findOrCreateAppConfig_spec :
    findOrCreateAppConfig none = Value.obj [] ∧
    (∀ d, findOrCreateAppConfig (some (ModuleExports.configInst d)) = d) ∧
    (∀ d, findOrCreateAppConfig (some (ModuleExports.plain (some d))) = d) ∧
    findOrCreateAppConfig (some (ModuleExports.plain none)) = Value.obj [] :=
  ⟨rfl, fun _ => rfl, fun _ => rfl, rfl⟩

/-- C10: a constructor argument that is not a function and not a `Config`
is adopted as the root exactly when its JS `typeof` is object — including
`null` and arrays, with no copying and no validation — and every other type
(number, string, boolean, `undefined`) leaves a fresh empty mapping root. -/
theorem ctor_dispatch (v : Value) (hf : jsTypeof v ≠ ("function" : String)) :
    (jsTypeof v = ("object" : String) →
      Config.mkData (CtorArg.fromValue v) = v) ∧
    (jsTypeof v ≠ ("object" : String) →
      Config.mkData (CtorArg.fromValue v) = Value.obj []) := by
  constructor
  · intro h
    simp [Config.mkData, h]
  · intro h
    simp [Config.mkData, h]

/-- C10 witness: `null` and an array (typeof object) are adopted as the root
as-is, while a number argument leaves the fresh empty mapping. -/
theorem ctor_dispatch_witness :
    Config.mkData (CtorArg.fromValue Value.vnull) = Value.vnull ∧
    Config.mkData (CtorArg.fromValue (Value.arr [Value.vnum 1])) =
      Value.arr [Value.vnum 1] ∧
    Config.mkData (CtorArg.fromValue (Value.vnum 3)) = Value.obj [] :=
  ⟨(ctor_dispatch Value.vnull (by decide)).1 (by decide),
   (ctor_dispatch (Value.arr [Value.vnum 1]) (by decide)).1 (by decide),
   (ctor_dispatch (Value.vnum 3) (by decide)).2 (by decide)⟩
